import Mathlib

/-!
Verification of the SEOracle2 content pipeline (shallow embedding).

The repository glues generative-model text output to a typed record and
drives a plan → metadata → draft → review → publish workflow.  The
embedding below translates, from the Python source:

* `seo_generator/utils.py`: `extract_json_from_text`, `load_keywords`
  (filter step, the file/encoding I/O being supplied as an oracle),
  `select_keywords`;
* `seo_generator/content_generator.py`: `_generate_content_plan`,
  `_generate_seo_metadata`, `_generate_article`, `_review_content`,
  `_process_keyword`, `run` — each remote chat-completion call is an
  oracle parameter of type `Except String String` (`error` models the
  call raising);
* `seo_generator/wordpress_api.py`: `publish_post`, `get_category_id`,
  `_create_category` — each HTTP exchange is an oracle parameter.

Python dynamic values that flow through the pipeline are modelled by the
`JsonVal` type; `json.loads` is modelled by a fuel-based recursive-descent
decoder following the grammar the `json` module accepts (including the
`NaN` / `Infinity` / `-Infinity` constants, rejection of raw control
characters inside strings, and last-wins duplicate object keys).  Numbers
are kept as their lexemes, which is faithful up to numeric identity that
none of the claims depend on.  `Char.ofNat` flattens the unrepresentable
lone-surrogate corner of `\uXXXX` escapes.  Fuel exhaustion mirrors the
recursion limit of the CPython decoder on pathologically nested input.
-/

namespace SEOGen

/-- A Python/JSON value as produced by `json.loads` (numbers kept as lexemes). -/
inductive JsonVal where
  | null : JsonVal
  | bool : Bool → JsonVal
  | num : String → JsonVal
  | str : String → JsonVal
  | arr : List JsonVal → JsonVal
  | obj : List (String × JsonVal) → JsonVal

/-- JSON inter-token whitespace accepted by `json.loads` (space, tab, LF, CR). -/
def jsonWsChar (c : Char) : Bool :=
  c == ' ' || c == '\t' || c == '\n' || c == '\r'

/-- Skip JSON whitespace. -/
def skipWs (cs : List Char) : List Char :=
  cs.dropWhile jsonWsChar

/-- Value of one hexadecimal digit (code-point arithmetic: `0`-`9` are
48–57, `a`-`f` are 97–102, `A`-`F` are 65–70). -/
def hexDigitVal (c : Char) : Option Nat :=
  let n := c.toNat
  if 48 ≤ n && n ≤ 57 then some (n - 48)
  else if 97 ≤ n && n ≤ 102 then some (n - 87)
  else if 65 ≤ n && n ≤ 70 then some (n - 55)
  else none

/-- Four hexadecimal digits of a `\uXXXX` escape. -/
def parseHex4 : List Char → Option (Nat × List Char)
  | a :: b :: c :: d :: rest =>
    match hexDigitVal a, hexDigitVal b, hexDigitVal c, hexDigitVal d with
    | some x, some y, some z, some w => some (((x * 16 + y) * 16 + z) * 16 + w, rest)
    | _, _, _, _ => none
  | _ => none

/-- Body of a JSON string after the opening quote: escapes as accepted by the
`json` module in strict mode (raw control characters rejected, surrogate
pairs in `\uXXXX` escapes combined, lone surrogates passed through — here
flattened by `Char.ofNat`).  Fuel is the remaining length, each step
consuming at least one character. -/
def parseStringLoop : Nat → List Char → List Char → Option (String × List Char)
  | 0, _, _ => none
  | fuel + 1, acc, cs =>
    match cs with
    | [] => none
    | c :: rest =>
      if c == '"' then some (String.mk acc.reverse, rest)
      else if c == '\\' then
        match rest with
        | [] => none
        | e :: rest2 =>
          if e == '"' then parseStringLoop fuel ('"' :: acc) rest2
          else if e == '\\' then parseStringLoop fuel ('\\' :: acc) rest2
          else if e == '/' then parseStringLoop fuel ('/' :: acc) rest2
          else if e == 'b' then parseStringLoop fuel ('\x08' :: acc) rest2
          else if e == 'f' then parseStringLoop fuel ('\x0c' :: acc) rest2
          else if e == 'n' then parseStringLoop fuel ('\n' :: acc) rest2
          else if e == 'r' then parseStringLoop fuel ('\r' :: acc) rest2
          else if e == 't' then parseStringLoop fuel ('\t' :: acc) rest2
          else if e == 'u' then
            match parseHex4 rest2 with
            | none => none
            | some (n1, rest3) =>
              if 0xD800 ≤ n1 && n1 ≤ 0xDBFF then
                match rest3 with
                | '\\' :: 'u' :: rest4 =>
                  match parseHex4 rest4 with
                  | some (n2, rest5) =>
                    if 0xDC00 ≤ n2 && n2 ≤ 0xDFFF then
                      parseStringLoop fuel
                        (Char.ofNat (0x10000 + (n1 - 0xD800) * 0x400 + (n2 - 0xDC00)) :: acc) rest5
                    else parseStringLoop fuel (Char.ofNat n1 :: acc) rest3
                  | none => parseStringLoop fuel (Char.ofNat n1 :: acc) rest3
                | _ => parseStringLoop fuel (Char.ofNat n1 :: acc) rest3
              else parseStringLoop fuel (Char.ofNat n1 :: acc) rest3
          else none
      else if c.toNat < 0x20 then none
      else parseStringLoop fuel (c :: acc) rest

/-- JSON string body, with fuel sized to the input. -/
def parseStringBody (cs : List Char) : Option (String × List Char) :=
  parseStringLoop (cs.length + 1) [] cs

/-- Integer part of the JSON number grammar, `0|[1-9][0-9]*`. -/
def lexUInt : List Char → Option (List Char × List Char)
  | [] => none
  | c :: cs =>
    if c == '0' then some ([c], cs)
    else if c.isDigit then
      match cs.span Char.isDigit with
      | (ds, rest) => some (c :: ds, rest)
    else none

/-- Optional fraction part `\.[0-9]+` of the JSON number grammar. -/
def lexFrac : List Char → (List Char × List Char)
  | '.' :: cs =>
    match cs.span Char.isDigit with
    | ([], _) => ([], '.' :: cs)
    | (ds, rest) => ('.' :: ds, rest)
  | cs => ([], cs)

/-- Optional exponent part `[eE][+-]?[0-9]+` of the JSON number grammar. -/
def lexExp : List Char → (List Char × List Char)
  | [] => ([], [])
  | c :: cs =>
    if c == 'e' || c == 'E' then
      match cs with
      | [] => ([], [c])
      | s :: cs2 =>
        if s == '+' || s == '-' then
          match cs2.span Char.isDigit with
          | ([], _) => ([], c :: cs)
          | (ds, rest) => (c :: s :: ds, rest)
        else
          match (s :: cs2).span Char.isDigit with
          | ([], _) => ([], c :: cs)
          | (ds, rest) => (c :: ds, rest)
    else ([], c :: cs)

/-- Lex a JSON number (kept as its lexeme), per `-?(0|[1-9]\d*)(\.\d+)?([eE][+-]?\d+)?`. -/
def lexNumber (cs : List Char) : Option (String × List Char) :=
  match cs with
  | '-' :: rest =>
    match lexUInt rest with
    | some (ds, r1) =>
      match lexFrac r1 with
      | (fr, r2) =>
        match lexExp r2 with
        | (ex, r3) => some (String.mk (('-' :: ds) ++ fr ++ ex), r3)
    | none => none
  | _ =>
    match lexUInt cs with
    | some (ds, r1) =>
      match lexFrac r1 with
      | (fr, r2) =>
        match lexExp r2 with
        | (ex, r3) => some (String.mk (ds ++ fr ++ ex), r3)
    | none => none

/-- Insert a key into an object under construction: last duplicate wins,
first insertion position kept (Python `dict` semantics). -/
def objInsert (m : List (String × JsonVal)) (k : String) (v : JsonVal) :
    List (String × JsonVal) :=
  if m.any (fun p => p.1 == k) then
    m.map (fun p => if p.1 == k then (k, v) else p)
  else m ++ [(k, v)]

mutual

/-- One JSON value at the head of the input (the scanner of the `json` module:
string, object, array, the three literals, a number, or one of the `NaN` /
`Infinity` / `-Infinity` constants). -/
def parseValue : Nat → List Char → Option (JsonVal × List Char)
  | 0, _ => none
  | fuel + 1, cs =>
    match cs with
    | [] => none
    | '"' :: rest =>
      match parseStringBody rest with
      | some (s, r) => some (JsonVal.str s, r)
      | none => none
    | '{' :: rest =>
      match skipWs rest with
      | '}' :: r => some (JsonVal.obj [], r)
      | cs2 => parseObjEntries fuel [] cs2
    | '[' :: rest =>
      match skipWs rest with
      | ']' :: r => some (JsonVal.arr [], r)
      | cs2 => parseArrEntries fuel [] cs2
    | 'n' :: 'u' :: 'l' :: 'l' :: r => some (JsonVal.null, r)
    | 't' :: 'r' :: 'u' :: 'e' :: r => some (JsonVal.bool true, r)
    | 'f' :: 'a' :: 'l' :: 's' :: 'e' :: r => some (JsonVal.bool false, r)
    | _ =>
      match lexNumber cs with
      | some (lexeme, r) => some (JsonVal.num lexeme, r)
      | none =>
        if ("NaN".toList).isPrefixOf cs then some (JsonVal.num "NaN", cs.drop 3)
        else if ("Infinity".toList).isPrefixOf cs then some (JsonVal.num "Infinity", cs.drop 8)
        else if ("-Infinity".toList).isPrefixOf cs then some (JsonVal.num "-Infinity", cs.drop 9)
        else none

/-- Members of a JSON object, positioned at a property name. -/
def parseObjEntries : Nat → List (String × JsonVal) → List Char →
    Option (JsonVal × List Char)
  | 0, _, _ => none
  | fuel + 1, acc, cs =>
    match cs with
    | '"' :: rest =>
      match parseStringBody rest with
      | none => none
      | some (k, r1) =>
        match skipWs r1 with
        | ':' :: r2 =>
          match parseValue fuel (skipWs r2) with
          | none => none
          | some (v, r3) =>
            match skipWs r3 with
            | ',' :: r4 => parseObjEntries fuel (objInsert acc k v) (skipWs r4)
            | '}' :: r4 => some (JsonVal.obj (objInsert acc k v), r4)
            | _ => none
        | _ => none
    | _ => none

/-- Elements of a JSON array, positioned at a value. -/
def parseArrEntries : Nat → List JsonVal → List Char → Option (JsonVal × List Char)
  | 0, _, _ => none
  | fuel + 1, acc, cs =>
    match parseValue fuel cs with
    | none => none
    | some (v, r1) =>
      match skipWs r1 with
      | ',' :: r2 => parseArrEntries fuel (acc ++ [v]) (skipWs r2)
      | ']' :: r2 => some (JsonVal.arr (acc ++ [v]), r2)
      | _ => none

end

/-- `json.loads`: decode one document, allowing surrounding whitespace and
rejecting trailing data; `none` models `JSONDecodeError`. -/
def json_loads (s : String) : Option JsonVal :=
  match parseValue (2 * s.length + 8) (skipWs s.toList) with
  | some (v, rest) => if skipWs rest = [] then some v else none
  | none => none

/-- Whitespace of the `re` module's `\s` class / `str.isspace` (Unicode). -/
def pyWsChar (c : Char) : Bool :=
  ([9, 10, 11, 12, 13, 28, 29, 30, 31, 32, 0x85, 0xA0, 0x1680,
    0x2028, 0x2029, 0x202F, 0x205F, 0x3000] : List Nat).contains c.toNat
  || (decide (0x2000 ≤ c.toNat) && decide (c.toNat ≤ 0x200A))

/-- Python `str.strip()`: remove whitespace from both ends. -/
def pyStrip (s : String) : String :=
  String.mk (((s.toList.dropWhile pyWsChar).reverse.dropWhile pyWsChar).reverse)

/-- Python `s.startswith(pre)`. -/
def pyStartsWith (s pre : String) : Bool :=
  pre.toList.isPrefixOf s.toList

/-- Index of the first occurrence of `pat` in a character list. -/
def listIndexOf (pat : List Char) : List Char → Option Nat
  | [] => if pat = [] then some 0 else none
  | c :: cs =>
    if pat.isPrefixOf (c :: cs) then some 0
    else (listIndexOf pat cs).map (· + 1)

/-- Whether `sub` occurs inside `s` (Python `sub in s`). -/
def containsSubstr (s sub : String) : Bool :=
  (listIndexOf sub.toList s.toList).isSome

/-- Suffix after the leftmost position where the whole pattern
`` ```json\s*([\s\S]*?)\s*``` `` can match: a literal ```` ```json ````
with some closing ```` ``` ```` later (the match attempt at an opening
without a close fails and the scan moves right, as `re.search` does). -/
def fencedStart : List Char → Option (List Char)
  | [] => none
  | c :: cs =>
    if ("```json".toList).isPrefixOf (c :: cs)
        && (listIndexOf ("```".toList) ((c :: cs).drop 7)).isSome then
      some ((c :: cs).drop 7)
    else fencedStart cs

/-- Group 1 of `` re.search(r'```json\s*([\s\S]*?)\s*```', text) ``.  After the
opening fence the greedy `\s*`, the lazy group and the second greedy `\s*`
make the captured group the text up to the first closing fence with the
surrounding whitespace stripped. -/
def fencedCapture (text : String) : Option String :=
  match fencedStart text.toList with
  | none => none
  | some t =>
    match listIndexOf ("```".toList) t with
    | none => none
    | some m => some (pyStrip (String.mk (t.take m)))

/-- Index of the last occurrence of character `c`. -/
def lastIndexOfChar (c : Char) (cs : List Char) : Option Nat :=
  match listIndexOf [c] cs.reverse with
  | some j => some (cs.length - 1 - j)
  | none => none

/-- Group 1 of `` re.search(r'({[\s\S]*})', text) ``: from the first opening
brace (provided a closing brace follows it) greedily to the last closing
brace of the text. -/
def braceCapture (text : String) : Option String :=
  let cs := text.toList
  match listIndexOf ['{'] cs with
  | none => none
  | some i =>
    match lastIndexOfChar '}' cs with
    | none => none
    | some l => if i < l then some (String.mk ((cs.drop i).take (l + 1 - i))) else none

/-- Step 3 of `extract_json_from_text`: parse the whole text, else return the
`raw_content` sentinel mapping. -/
def extractWhole (text : String) : JsonVal :=
  match json_loads text with
  | some v => v
  | none => JsonVal.obj [("raw_content", JsonVal.str text)]

/-- Step 2 of `extract_json_from_text`: the brace-delimited span, else step 3. -/
def extractBraces (text : String) : JsonVal :=
  match braceCapture text with
  | some g =>
    match json_loads g with
    | some v => v
    | none => extractWhole text
  | none => extractWhole text

/-- `utils.extract_json_from_text`: fenced block first, then brace span, then
the whole text, then the sentinel mapping. -/
def extract_json_from_text (text : String) : JsonVal :=
  match fencedCapture text with
  | some g =>
    match json_loads g with
    | some v => v
    | none => extractBraces text
  | none => extractBraces text

/-! ## Python value semantics used by the pipeline -/

/-- Whether the mantissa of a number lexeme denotes zero (grammar guarantees
a digit; `NaN` and the infinities are non-zero). -/
def numIsZero (lex : String) : Bool :=
  let cs := match lex.toList with
    | '-' :: r => r
    | l => l
  let mantissa := cs.takeWhile (fun c => !(c == 'e' || c == 'E'))
  mantissa.all (fun c => c == '0' || c == '.') && mantissa.any (fun c => c == '0')

/-- Python truthiness of a value (`bool(v)`). -/
def pyTruthy : JsonVal → Bool
  | .null => false
  | .bool b => b
  | .num lex => !(numIsZero lex)
  | .str s => !s.isEmpty
  | .arr l => !l.isEmpty
  | .obj m => !m.isEmpty

/-- Whether the value is a mapping (`dict`). -/
def pyIsDict : JsonVal → Bool
  | .obj _ => true
  | _ => false

/-- `dict.get(k, default)` on an object's entry list. -/
def pyGet (m : List (String × JsonVal)) (k : String) (default : JsonVal) : JsonVal :=
  match m.find? (fun p => p.1 == k) with
  | some p => p.2
  | none => default

/-- `v[k]` for a string key: `some` only on a dict containing the key. -/
def objLookup (v : JsonVal) (k : String) : Option JsonVal :=
  match v with
  | .obj m => (m.find? (fun p => p.1 == k)).map (fun p => p.2)
  | _ => none

/-- Python `v[0]`: head of a list, first character of a string, `KeyError` on
a dict without key `0`, `TypeError` otherwise. -/
def pyIndex0 : JsonVal → Except String JsonVal
  | .arr (x :: _) => .ok x
  | .arr [] => .error "IndexError"
  | .str s =>
    match s.toList with
    | c :: _ => .ok (JsonVal.str (String.mk [c]))
    | [] => .error "IndexError"
  | .obj _ => .error "KeyError"
  | _ => .error "TypeError"

/-- Python `key in v`: key containment on a dict, element equality on a list,
substring test on a string, `TypeError` otherwise. -/
def pyContains (v : JsonVal) (key : String) : Except String Bool :=
  match v with
  | .obj m => .ok (m.any (fun p => p.1 == key))
  | .arr l =>
    .ok (l.any (fun e => match e with
      | .str s => s == key
      | _ => false))
  | .str s => .ok (containsSubstr s key)
  | _ => .error "TypeError"

/-- `any([key in v for key in keys])`: the comprehension evaluates every
membership test before `any` runs. -/
def pyContainsAny (v : JsonVal) (keys : List String) : Except String Bool :=
  match keys.mapM (pyContains v) with
  | .ok bs => .ok (bs.any id)
  | .error e => .error e

/-- Values Python can iterate over (`for x in v`). -/
def pyIterable : JsonVal → Bool
  | .arr _ => true
  | .str _ => true
  | .obj _ => true
  | _ => false

/-- Whether `", ".join(v)` succeeds: iterable with every element a string
(characters of a string and keys of a dict always are). -/
def joinAllStr : JsonVal → Bool
  | .str _ => true
  | .obj _ => true
  | .arr l =>
    l.all (fun e => match e with
      | .str _ => true
      | _ => false)
  | _ => false

/-- `str.lower()` (ASCII model of the Unicode lowering; the claims only
exercise ASCII category names). -/
def pyLower (s : String) : String :=
  String.mk (s.toList.map Char.toLower)

/-! ## Keyword source (`utils.load_keywords`, `utils.select_keywords`) -/

/-- The filter step of `load_keywords` over the lines the file I/O produced:
keep stripped lines that are non-blank and not comments, raising
`ValueError` when nothing is left. -/
def load_keywords (lines : List String) : Except String (List String) :=
  let keywords := (lines.map pyStrip).filter
    (fun l => !(l == "") && !(pyStartsWith l "#"))
  if keywords.isEmpty then
    .error "Nenhuma palavra-chave encontrada no arquivo. Adicione pelo menos uma palavra-chave."
  else .ok keywords

/-- Modelled from the spec: the Keyword Source "returns only the non-comment,
non-blank lines, in original order" (whitespace-stripped, duplicates kept)
— the reference result `load_keywords` is compared against. -/
def keywordsSpec (lines : List String) : List String :=
  lines.filterMap (fun line =>
    if !(pyStrip line == "") && !(pyStartsWith (pyStrip line) "#") then some (pyStrip line)
    else none)

/-- Python list slicing `l[:n]`, clamping a negative stop from the end. -/
def pySliceTo (l : List String) (n : Int) : List String :=
  if n < 0 then l.take (l.length - min l.length n.natAbs) else l.take n.toNat

/-- `utils.select_keywords`: the first `min(count, len(keywords))` items. -/
def select_keywords (keywords : List String) (count : Int) : List String :=
  pySliceTo keywords (min count (keywords.length : Int))

/-! ## WordPress client (`wordpress_api.py`), HTTP exchanges as oracles -/

/-- Outcome of one `requests` call: a decoded JSON body, a body that is not
JSON, an HTTP error status (raised by `raise_for_status`), a connection
failure, or any other exception. -/
inductive HttpOutcome where
  | ok : JsonVal → HttpOutcome
  | okBadJson : String → HttpOutcome
  | httpError : Nat → String → HttpOutcome
  | connError : String → HttpOutcome
  | otherError : String → HttpOutcome

/-- The exception a `publish_post` failure raises: a generic `Exception` or
the distinct `ConnectionError` type, each carrying its message. -/
inductive PubErr where
  | exception : String → PubErr
  | connectionError : String → PubErr

/-- Whether a publish failure is of the generic `Exception` type. -/
def PubErr.isException : PubErr → Bool
  | .exception _ => true
  | .connectionError _ => false

/-- `WordPressClient.publish_post`: an HTTP error status becomes an
`Exception` whose message embeds status and body, a connection failure
becomes a `ConnectionError`, anything else (a non-JSON body, a body
without `id`, any other exception) a generic `Exception`; a decoded body
containing `id` is returned. -/
def publish_post (_title _content _excerpt : JsonVal)
    (_category_id _featured_image_id : Option JsonVal) (_status : String)
    (outcome : HttpOutcome) : Except PubErr JsonVal :=
  match outcome with
  | .ok body =>
    match objLookup body "id" with
    | some _ => .ok body
    | none => .error (.exception "Erro inesperado ao publicar artigo: KeyError: id")
  | .okBadJson m => .error (.exception ("Erro inesperado ao publicar artigo: " ++ m))
  | .httpError s b =>
    .error (.exception ("Erro HTTP ao publicar artigo: " ++ toString s ++ " - " ++ b))
  | .connError m =>
    .error (.connectionError ("Erro de conexão ao publicar artigo: " ++ m))
  | .otherError m => .error (.exception ("Erro inesperado ao publicar artigo: " ++ m))

/-- The `for category in categories` loop of `get_category_id`: first entry
whose `name` matches case-insensitively wins and its `id` is returned;
a malformed entry reached before a match raises (`.error`), which the
enclosing handler turns into `None`. -/
def categoryLoop (nameLower : String) : List JsonVal → Except Unit (Option JsonVal)
  | [] => .ok none
  | entry :: rest =>
    match objLookup entry "name" with
    | some (.str nm) =>
      if pyLower nm == nameLower then
        match objLookup entry "id" with
        | some v => .ok (some v)
        | none => .error ()
      else categoryLoop nameLower rest
    | _ => .error ()

/-- A well-formed category record of the search response: a dict with a
string `name` and an `id`. -/
def wellFormedCat (v : JsonVal) : Bool :=
  (match objLookup v "name" with
    | some (.str _) => true
    | _ => false)
  && (objLookup v "id").isSome

/-- The loop's match condition: the entry's `name` equals the requested name
case-insensitively. -/
def catMatches (category_name : String) (v : JsonVal) : Bool :=
  match objLookup v "name" with
  | some (.str nm) => pyLower nm == pyLower category_name
  | _ => false

/-- `WordPressClient._create_category`: the created record's `id`, `None` on
any failure. -/
def create_category (createOutcome : HttpOutcome) : Option JsonVal :=
  match createOutcome with
  | .ok body =>
    match objLookup body "id" with
    | some v => some v
    | none => none
  | _ => none

/-- `WordPressClient.get_category_id`: search, case-insensitive first match,
else create; any exception anywhere yields `None`.  An empty string or
dict body iterates zero times and falls through to creation; a non-empty
one raises on its first element. -/
def get_category_id (category_name : String)
    (searchOutcome createOutcome : HttpOutcome) : Option JsonVal :=
  match searchOutcome with
  | .ok (.arr cats) =>
    match categoryLoop (pyLower category_name) cats with
    | .ok (some v) => some v
    | .ok none => create_category createOutcome
    | .error _ => none
  | .ok (.str s) => if s.isEmpty then create_category createOutcome else none
  | .ok (.obj m) => if m.isEmpty then create_category createOutcome else none
  | .ok _ => none
  | .okBadJson _ => none
  | .httpError _ _ => none
  | .connError _ => none
  | .otherError _ => none

/-! ## Content generator pipeline (`content_generator.py`) -/

/-- The standardized content plan built by `_generate_content_plan` (every
key present; values are whatever the model's JSON carried). -/
structure ContentPlan where
  title_suggestions : JsonVal
  subtopics : JsonVal
  secondary_keywords : JsonVal
  visual_elements : JsonVal
  internal_links : JsonVal
  friendly_url : JsonVal
  meta_description : JsonVal

/-- The standardized SEO metadata built by `_generate_seo_metadata`. -/
structure SeoMetadata where
  seo_title : JsonVal
  meta_description : JsonVal
  friendly_url : JsonVal

/-- The article record produced by `_generate_article` / `_review_content`
(the four keys are always present). -/
structure Article where
  seo_title : JsonVal
  content : JsonVal
  meta_description : JsonVal
  friendly_url : JsonVal

/-- `_generate_content_plan`: extract JSON from the model reply and
standardize the keys (Portuguese alias first).  A failed call, or an
extraction result that is not a mapping (`.get` on it raises inside the
`try`), is re-raised as a generation failure. -/
def generate_content_plan (_kw : String) (planResp : Except String String) :
    Except String ContentPlan :=
  match planResp with
  | .error e => .error ("Falha ao gerar plano de conteúdo: " ++ e)
  | .ok content =>
    match extract_json_from_text content with
    | .obj m => .ok
      { title_suggestions := pyGet m "titulos" (pyGet m "title_suggestions" (JsonVal.arr []))
        subtopics := pyGet m "subtopicos" (pyGet m "subtopics" (JsonVal.arr []))
        secondary_keywords :=
          pyGet m "palavras_chave_secundarias" (pyGet m "secondary_keywords" (JsonVal.arr []))
        visual_elements := pyGet m "elementos_visuais" (pyGet m "visual_elements" (JsonVal.arr []))
        internal_links := pyGet m "links_internos" (pyGet m "internal_links" (JsonVal.arr []))
        friendly_url := pyGet m "url_amigavel" (pyGet m "friendly_url" (JsonVal.str ""))
        meta_description := pyGet m "meta_descricao" (pyGet m "meta_description" (JsonVal.str "")) }
    | _ => .error "Falha ao gerar plano de conteúdo: AttributeError"

/-- The `except` branch of `_generate_seo_metadata`: fall back to the plan's
data.  The standardized plan always carries the `meta_description` and
`friendly_url` keys, so their non-empty literal defaults are dead;
indexing `title_suggestions[0]` can itself raise, which propagates. -/
def seoFallback (kw : String) (year : Nat) (plan : ContentPlan) :
    Except String SeoMetadata :=
  if pyTruthy plan.title_suggestions then
    match pyIndex0 plan.title_suggestions with
    | .ok v => .ok
      { seo_title := v
        meta_description := plan.meta_description
        friendly_url := plan.friendly_url }
    | .error e => .error e
  else .ok
    { seo_title := JsonVal.str ("Como " ++ kw ++ " em " ++ toString year)
      meta_description := plan.meta_description
      friendly_url := plan.friendly_url }

/-- `_generate_seo_metadata`: extract JSON from the model reply and
standardize; any exception (failed call, or `.get` on a non-mapping
extraction result) is caught and answered with the plan fallback. -/
def generate_seo_metadata (kw : String) (year : Nat) (plan : ContentPlan)
    (metaResp : Except String String) : Except String SeoMetadata :=
  match metaResp with
  | .error _ => seoFallback kw year plan
  | .ok content =>
    match extract_json_from_text content with
    | .obj m => .ok
      { seo_title := pyGet m "titulo_seo" (pyGet m "seo_title" (JsonVal.str ""))
        meta_description := pyGet m "meta_description" (JsonVal.str "")
        friendly_url := pyGet m "url_amigavel" (pyGet m "friendly_url" (JsonVal.str "")) }
    | _ => seoFallback kw year plan

/-- `_generate_article`: the prompt construction joins over the plan's list
fields (outside the `try`, so a non-iterable field raises out of the
method); on a successful call the reply is packaged verbatim with the
metadata's title, description and URL. -/
def generate_article (plan : ContentPlan) (_kw : String) (meta : SeoMetadata)
    (articleResp : Except String String) : Except String Article :=
  if !(pyIterable plan.subtopics) then
    .error "TypeError: subtopics is not iterable"
  else if !(joinAllStr plan.secondary_keywords) then
    .error "TypeError: sequence item of secondary_keywords is not str"
  else if pyTruthy plan.visual_elements && !(pyIterable plan.visual_elements) then
    .error "TypeError: visual_elements is not iterable"
  else if pyTruthy plan.internal_links && !(pyIterable plan.internal_links) then
    .error "TypeError: internal_links is not iterable"
  else
    match articleResp with
    | .error e => .error ("Falha ao gerar artigo: " ++ e)
    | .ok content => .ok
      { seo_title := meta.seo_title
        content := JsonVal.str content
        meta_description := meta.meta_description
        friendly_url := meta.friendly_url }

/-- `_review_content`: every exception inside the `try` (failed call, `in`
on a non-container extraction result, `.get` on a non-mapping one) is
caught and the draft article returned unchanged; if the reply's extracted
JSON carries one of the four known keys the record is rebuilt from it,
otherwise only the content is replaced by the revised text. -/
def review_content (article : Article) (_kw : String)
    (reviewResp : Except String String) : Article :=
  match reviewResp with
  | .error _ => article
  | .ok content =>
    let json_data := extract_json_from_text content
    match pyContainsAny json_data ["meta_description", "seo_title", "title", "friendly_url"] with
    | .error _ => article
    | .ok false => { article with content := JsonVal.str content }
    | .ok true =>
      match json_data with
      | .obj m =>
        { seo_title := pyGet m "seo_title" (pyGet m "title" article.seo_title)
          content := pyGet m "content" (JsonVal.str content)
          meta_description := pyGet m "meta_description" article.meta_description
          friendly_url := pyGet m "friendly_url" article.friendly_url }
      | _ => article

/-- The remote exchanges one keyword's processing performs, in pipeline
order (each chat completion as `Except`, each WordPress call as an
`HttpOutcome`). -/
structure KwOracle where
  planResp : Except String String
  metaResp : Except String String
  articleResp : Except String String
  reviewResp : Except String String
  categorySearch : HttpOutcome
  categoryCreate : HttpOutcome
  publishOutcome : HttpOutcome

/-- The configuration fields the orchestration logic reads. -/
structure Config where
  target_category : String
  year : Nat

/-- Steps 1–3 of `_process_keyword`: the pre-review draft article. -/
def draft_of (cfg : Config) (o : KwOracle) (kw : String) : Except String Article := do
  let plan ← generate_content_plan kw o.planResp
  let meta ← generate_seo_metadata kw cfg.year plan o.metaResp
  generate_article plan kw meta o.articleResp

/-- Step 4 of `_process_keyword`: the reviewed article — the record whose
fields are handed to `publish_post`. -/
def reviewed_of (cfg : Config) (o : KwOracle) (kw : String) : Except String Article :=
  (draft_of cfg o kw).map (fun a => review_content a kw o.reviewResp)

/-- `_process_keyword`: draft, review, resolve the category when one is
configured (truthy string), publish title/content/excerpt.  Any raised
exception surfaces as `.error` to the run loop. -/
def process_keyword (cfg : Config) (o : KwOracle) (kw : String) :
    Except String JsonVal := do
  let reviewed ← reviewed_of cfg o kw
  let category_id :=
    if cfg.target_category == "" then none
    else get_category_id cfg.target_category o.categorySearch o.categoryCreate
  match publish_post reviewed.seo_title reviewed.content reviewed.meta_description
      category_id none "draft" o.publishOutcome with
  | .ok resp => .ok resp
  | .error (.exception m) => .error m
  | .error (.connectionError m) => .error m

/-- The `for` body of `run` over the already-selected keywords: each
keyword is attempted, its exception (if any) caught and logged, and the
loop continues; the outcome list records what happened per keyword. -/
def runLoop (cfg : Config) (oracleFor : String → KwOracle) (kws : List String) :
    List (String × Except String JsonVal) :=
  kws.map (fun kw => (kw, process_keyword cfg (oracleFor kw) kw))

/-- `SEOContentGenerator.run`: select the first `posts_per_run` keywords and
attempt each in turn; never raises on a per-keyword failure. -/
def run (cfg : Config) (oracleFor : String → KwOracle) (keywords : List String)
    (posts_per_run : Int) : List (String × Except String JsonVal) :=
  runLoop cfg oracleFor (select_keywords keywords posts_per_run)

/-! ## Theorems -/

/-- Equation: step 3 on a parsable whole text. -/
theorem extractWhole_eq_parse (text : String) (v : JsonVal)
    (h : json_loads text = some v) : extractWhole text = v := by
  simp only [extractWhole, h]

/-- Equation: step 3 on an unparsable whole text. -/
theorem extractWhole_eq_sentinel (text : String) (h : json_loads text = none) :
    extractWhole text = JsonVal.obj [("raw_content", JsonVal.str text)] := by
  simp only [extractWhole, h]

/-- Equation: step 2 parses its capture. -/
theorem extractBraces_eq_parse (text g : String) (v : JsonVal)
    (h1 : braceCapture text = some g) (h2 : json_loads g = some v) :
    extractBraces text = v := by
  simp only [extractBraces, h1, h2]

/-- Equation: step 2 finds no capture. -/
theorem extractBraces_eq_whole_of_none (text : String)
    (h : braceCapture text = none) : extractBraces text = extractWhole text := by
  simp only [extractBraces, h]

/-- Equation: step 2's capture does not parse. -/
theorem extractBraces_eq_whole_of_bad (text g : String)
    (h1 : braceCapture text = some g) (h2 : json_loads g = none) :
    extractBraces text = extractWhole text := by
  simp only [extractBraces, h1, h2]

/-- Equation: step 1 finds no capture. -/
theorem extract_eq_braces_of_none (text : String)
    (h : fencedCapture text = none) :
    extract_json_from_text text = extractBraces text := by
  simp only [extract_json_from_text, h]

/-- Equation: step 1's capture does not parse. -/
theorem extract_eq_braces_of_bad (text g : String)
    (h1 : fencedCapture text = some g) (h2 : json_loads g = none) :
    extract_json_from_text text = extractBraces text := by
  simp only [extract_json_from_text, h1, h2]

/-- Equation: step 1 parses its capture. -/
theorem extract_eq_parse (text g : String) (v : JsonVal)
    (h1 : fencedCapture text = some g) (h2 : json_loads g = some v) :
    extract_json_from_text text = v := by
  simp only [extract_json_from_text, h1, h2]

/-- Step 3 returns either the sentinel mapping or a value `json.loads`
produced. -/
theorem extractWhole_shape (text : String) :
    extractWhole text = JsonVal.obj [("raw_content", JsonVal.str text)]
      ∨ ∃ s, json_loads s = some (extractWhole text) := by
  cases h : json_loads text with
  | none => left; exact extractWhole_eq_sentinel text h
  | some v => right; exact ⟨text, by rw [extractWhole_eq_parse text v h, h]⟩

/-- Steps 2–3 return either the sentinel mapping or a value `json.loads`
produced. -/
theorem extractBraces_shape (text : String) :
    extractBraces text = JsonVal.obj [("raw_content", JsonVal.str text)]
      ∨ ∃ s, json_loads s = some (extractBraces text) := by
  cases hb : braceCapture text with
  | none => rw [extractBraces_eq_whole_of_none text hb]; exact extractWhole_shape text
  | some g =>
    cases hg : json_loads g with
    | none => rw [extractBraces_eq_whole_of_bad text g hb hg]; exact extractWhole_shape text
    | some v => right; exact ⟨g, by rw [extractBraces_eq_parse text g v hb hg, hg]⟩

/-- Claim C1 (amended): the Text Extractor is total — it never raises and for
every input returns either the single-entry `raw_content` sentinel mapping
or the value some parse attempt succeeded with; that value is a mapping
whenever the parsed top level is a JSON object, but is returned as-is (a
list, number, string, boolean or null) otherwise. -/
theorem extractor_never_fails_result_shape (text : String) :
    extract_json_from_text text = JsonVal.obj [("raw_content", JsonVal.str text)]
      ∨ ∃ s, json_loads s = some (extract_json_from_text text) := by
  cases hf : fencedCapture text with
  | none => rw [extract_eq_braces_of_none text hf]; exact extractBraces_shape text
  | some g =>
    cases hg : json_loads g with
    | none => rw [extract_eq_braces_of_bad text g hf hg]; exact extractBraces_shape text
    | some v => right; exact ⟨g, by rw [extract_eq_parse text g v hf hg, hg]⟩

/-- Claim C1, counterexample: on the input `"[1, 2]"` the Extractor returns
the parsed list, which is not a mapping — refuting "always returns a
mapping". -/
theorem extractor_can_return_non_mapping :
    extract_json_from_text "[1, 2]" = JsonVal.arr [JsonVal.num "1", JsonVal.num "2"]
      ∧ pyIsDict (extract_json_from_text "[1, 2]") = false :=
  ⟨rfl, rfl⟩

/-- Claim C2 (amended): when the fenced-block search finds a capture and that
capture parses, the Extractor returns exactly the parsed value, whatever
prose surrounds the block — the fenced attempt has priority over every
later step.  (The search finds the first fenced block only.) -/
theorem fenced_priority (text g : String) (v : JsonVal)
    (h1 : fencedCapture text = some g) (h2 : json_loads g = some v) :
    extract_json_from_text text = v :=
  extract_eq_parse text g v h1 h2

/-- Claim C2, witness: a fenced mapping surrounded by prose is returned
exactly. -/
theorem fenced_priority_witness :
    extract_json_from_text "Prose before ```json \x7b\"a\": 1\x7d ``` prose after"
      = JsonVal.obj [("a", JsonVal.num "1")] :=
  fenced_priority _ "\x7b\"a\": 1\x7d" _ rfl rfl

/-- Claim C2, counterexample: the input contains a json-fenced block whose
interior `\x7b"a": 1\x7d` is a valid mapping, yet the Extractor returns the
sentinel, because the search only ever considers the first fenced block
(here unparsable) and the later steps also fail.  -/
theorem later_fenced_block_missed :
    containsSubstr "```json oops``` \x7b\"b\": 2\x7d x ```json \x7b\"a\": 1\x7d```"
        "```json \x7b\"a\": 1\x7d```" = true
      ∧ json_loads "\x7b\"a\": 1\x7d" = some (JsonVal.obj [("a", JsonVal.num "1")])
      ∧ extract_json_from_text "```json oops``` \x7b\"b\": 2\x7d x ```json \x7b\"a\": 1\x7d```"
        = JsonVal.obj [("raw_content",
            JsonVal.str "```json oops``` \x7b\"b\": 2\x7d x ```json \x7b\"a\": 1\x7d```")] :=
  ⟨rfl, rfl, rfl⟩

/-- Claim C3: when no extraction step finds parsable data — any fenced
capture is unparsable, any brace capture is unparsable, and the whole text
is not valid JSON — the Extractor returns the single-entry mapping holding
the original input verbatim under the key `raw_content`. -/
theorem extract_all_fail_sentinel (text : String)
    (h1 : ∀ g, fencedCapture text = some g → json_loads g = none)
    (h2 : ∀ g, braceCapture text = some g → json_loads g = none)
    (h3 : json_loads text = none) :
    extract_json_from_text text = JsonVal.obj [("raw_content", JsonVal.str text)] := by
  have hw : extractWhole text = JsonVal.obj [("raw_content", JsonVal.str text)] :=
    extractWhole_eq_sentinel text h3
  have hb : extractBraces text = JsonVal.obj [("raw_content", JsonVal.str text)] := by
    cases hbc : braceCapture text with
    | none => rw [extractBraces_eq_whole_of_none text hbc]; exact hw
    | some g => rw [extractBraces_eq_whole_of_bad text g hbc (h2 g hbc)]; exact hw
  cases hfc : fencedCapture text with
  | none => rw [extract_eq_braces_of_none text hfc]; exact hb
  | some g => rw [extract_eq_braces_of_bad text g hfc (h1 g hfc)]; exact hb

/-- Claim C3, witness: plain prose comes back verbatim under the sentinel
key. -/
theorem extract_all_fail_sentinel_witness :
    extract_json_from_text "hello world"
      = JsonVal.obj [("raw_content", JsonVal.str "hello world")] := by
  apply extract_all_fail_sentinel
  · intro g hg
    rw [show fencedCapture "hello world" = none from rfl] at hg
    exact Option.noConfusion hg
  · intro g hg
    rw [show braceCapture "hello world" = none from rfl] at hg
    exact Option.noConfusion hg
  · rfl

/-- Claim C4: if the review stage fails with any exception, the record handed
to the publish step equals the pre-review draft exactly — same title,
content, meta description and friendly URL, with no partial merge. -/
theorem review_failure_preserves_draft (cfg : Config) (o : KwOracle) (kw : String)
    (draft : Article) (e : String)
    (h1 : draft_of cfg o kw = .ok draft) (h2 : o.reviewResp = .error e) :
    reviewed_of cfg o kw = .ok draft := by
  simp only [reviewed_of, h1, Except.map, review_content, h2]

/-- Claim C4, witness: a concrete pipeline whose review call raises publishes
the draft record unchanged. -/
theorem review_failure_preserves_draft_witness :
    reviewed_of ⟨"", 2025⟩
      ⟨.ok "\x7b\x7d", .ok "\x7b\"seo_title\": \"My Title\"\x7d", .ok "<p>hi</p>",
       .error "boom", .otherError "s", .otherError "c", .otherError "p"⟩ "kw"
      = .ok ⟨JsonVal.str "My Title", JsonVal.str "<p>hi</p>",
             JsonVal.str "", JsonVal.str ""⟩ := by
  apply review_failure_preserves_draft _ _ _ _ "boom" <;> rfl

/-- Claim C5: the run loop attempts exactly the selected keywords, whatever
each keyword's outcome (any per-keyword exception, a publish HTTP error
included, is caught and the loop continues — `run` itself never raises);
with three available keywords and `posts_per_run = 2` exactly the first
two are attempted. -/
theorem run_attempts_all_selected :
    (∀ (cfg : Config) (oracleFor : String → KwOracle) (keywords : List String)
      (posts_per_run : Int),
      (run cfg oracleFor keywords posts_per_run).map Prod.fst
        = select_keywords keywords posts_per_run)
    ∧ (∀ (cfg : Config) (oracleFor : String → KwOracle) (k1 k2 k3 : String),
      (run cfg oracleFor [k1, k2, k3] 2).map Prod.fst = [k1, k2]) := by
  constructor
  · intro cfg f kws p
    simp [run, runLoop, List.map_map, Function.comp_def]
  · intro cfg f k1 k2 k3
    rfl

/-- The filter of `load_keywords` agrees with the spec-side `filterMap`
formulation. -/
theorem load_keywords_filter_eq (lines : List String) :
    (lines.map pyStrip).filter (fun l => !(l == "") && !(pyStartsWith l "#"))
      = keywordsSpec lines := by
  induction lines with
  | nil => rfl
  | cons a l ih =>
    simp only [List.map_cons, List.filter_cons, keywordsSpec, List.filterMap_cons]
    by_cases h : (!(pyStrip a == "") && !(pyStartsWith (pyStrip a) "#")) = true
    · simp only [keywordsSpec] at ih
      simp [h, ih]
    · simp only [keywordsSpec] at ih
      simp [h, ih]

/-- Claim C9: the Keyword Source returns exactly the stripped non-blank,
non-comment lines in original order (duplicates kept), and fails with the
`ValueError` message when the filtered result is empty; a concrete store
with a duplicate, a blank line and a comment illustrates both halves. -/
theorem load_keywords_spec (lines : List String) :
    load_keywords lines =
      (if (keywordsSpec lines).isEmpty then
        .error "Nenhuma palavra-chave encontrada no arquivo. Adicione pelo menos uma palavra-chave."
      else .ok (keywordsSpec lines))
    ∧ load_keywords ["  marketing  ", "", "# nota", "marketing", "seo: dicas"]
      = .ok ["marketing", "marketing", "seo: dicas"]
    ∧ load_keywords ["# só comentário", "   "]
      = .error "Nenhuma palavra-chave encontrada no arquivo. Adicione pelo menos uma palavra-chave." := by
  refine ⟨?_, rfl, rfl⟩
  simp only [load_keywords, load_keywords_filter_eq]

/-- Claim C10: selecting a non-negative number of keywords from a shorter
list returns the whole list unchanged and in order — no padding, no
failure. -/
theorem select_keywords_short_source (keywords : List String) (n : Int)
    (h1 : 0 ≤ n) (h2 : (keywords.length : Int) < n) :
    select_keywords keywords n = keywords := by
  unfold select_keywords pySliceTo
  rw [min_eq_right h2.le]
  rw [if_neg (by omega : ¬((keywords.length : Int) < 0))]
  simp

/-- Claim C10, witness: asking for five keywords out of three returns the
three. -/
theorem select_keywords_short_source_witness :
    select_keywords ["a", "b", "c"] 5 = ["a", "b", "c"] :=
  select_keywords_short_source ["a", "b", "c"] 5 (by decide) (by decide)

/-- Claim C6, counterexample: the metadata-stage model call succeeds but its
reply carries no parsable title, so the standardized `seo_title` degrades
to the empty string; with review failing back to the draft, the record
handed to the publish step has an empty title — and the publish call is
in fact made with it. -/
theorem publish_record_title_can_be_empty :
    reviewed_of ⟨"", 2025⟩
      ⟨.ok "no json here at all", .ok "plain text reply", .ok "<p>body</p>",
       .error "x", .otherError "s", .otherError "c",
       .ok (JsonVal.obj [("id", JsonVal.num "7")])⟩ "marketing"
      = .ok ⟨JsonVal.str "", JsonVal.str "<p>body</p>", JsonVal.str "", JsonVal.str ""⟩
    ∧ process_keyword ⟨"", 2025⟩
      ⟨.ok "no json here at all", .ok "plain text reply", .ok "<p>body</p>",
       .error "x", .otherError "s", .otherError "c",
       .ok (JsonVal.obj [("id", JsonVal.num "7")])⟩ "marketing"
      = .ok (JsonVal.obj [("id", JsonVal.num "7")]) :=
  ⟨rfl, rfl⟩

/-- Claim C6 (amended): every record handed to publish carries all four
fields, but a field may be empty; the non-empty defaults are substituted
only when the metadata call itself raises — then, when the plan offers no
title suggestions, the fallback title `"Como {kw} em {year}"` is indeed a
non-empty string. -/
theorem metadata_failure_fallback_title_nonempty (kw : String) (year : Nat)
    (plan : ContentPlan) (e : String)
    (h : pyTruthy plan.title_suggestions = false) :
    generate_seo_metadata kw year plan (.error e)
      = .ok { seo_title := JsonVal.str ("Como " ++ kw ++ " em " ++ toString year)
              meta_description := plan.meta_description
              friendly_url := plan.friendly_url }
    ∧ ("Como " ++ kw ++ " em " ++ toString year) ≠ "" := by
  constructor
  · simp only [generate_seo_metadata, seoFallback, h]
    simp
  · intro hc
    have h0 := congrArg String.length hc
    rw [String.length_append, String.length_append, String.length_append] at h0
    have h5 : ("Como " : String).length = 5 := rfl
    have he : ("" : String).length = 0 := rfl
    omega

/-- Claim C6, witness: with an empty suggestion list and a failing metadata
call the fallback produces the non-empty generated title. -/
theorem metadata_failure_fallback_title_nonempty_witness :
    generate_seo_metadata "seo" 2025
      ⟨JsonVal.arr [], JsonVal.arr [], JsonVal.arr [], JsonVal.arr [], JsonVal.arr [],
       JsonVal.str "", JsonVal.str ""⟩ (.error "boom")
      = .ok { seo_title := JsonVal.str ("Como " ++ "seo" ++ " em " ++ toString 2025)
              meta_description := JsonVal.str ""
              friendly_url := JsonVal.str "" }
    ∧ ("Como " ++ "seo" ++ " em " ++ toString 2025) ≠ "" :=
  metadata_failure_fallback_title_nonempty "seo" 2025
    ⟨JsonVal.arr [], JsonVal.arr [], JsonVal.arr [], JsonVal.arr [], JsonVal.arr [],
     JsonVal.str "", JsonVal.str ""⟩ "boom" rfl

/-- Claim C7, counterexample: an HTTP error status and an unanticipated
failure both raise the *same* exception type (a plain `Exception`,
distinguished only by message text), so the three raise-conditions are not
mutually distinguishable by the caller. -/
theorem http_and_generic_share_exception_type :
    publish_post (JsonVal.str "t") (JsonVal.str "c") (JsonVal.str "e") none none "draft"
        (.httpError 500 "boom")
      = .error (.exception "Erro HTTP ao publicar artigo: 500 - boom")
    ∧ publish_post (JsonVal.str "t") (JsonVal.str "c") (JsonVal.str "e") none none "draft"
        (.otherError "weird")
      = .error (.exception "Erro inesperado ao publicar artigo: weird")
    ∧ PubErr.isException (.exception "Erro HTTP ao publicar artigo: 500 - boom") = true
    ∧ PubErr.isException (.exception "Erro inesperado ao publicar artigo: weird") = true :=
  ⟨rfl, rfl, rfl, rfl⟩

/-- Claim C7 (amended): the raise mapping of `publish_post` is exhaustive —
an HTTP error status raises a generic `Exception` whose message embeds the
status code and body, a network-level connection failure raises the
distinct `ConnectionError` type, and anything else raises a generic
`Exception`; only the connection case is type-distinguishable. -/
theorem publish_error_taxonomy (t c e : JsonVal) (cid fid : Option JsonVal)
    (st : String) :
    (∀ s b, publish_post t c e cid fid st (.httpError s b)
      = .error (.exception ("Erro HTTP ao publicar artigo: " ++ toString s ++ " - " ++ b)))
    ∧ (∀ m, publish_post t c e cid fid st (.connError m)
      = .error (.connectionError ("Erro de conexão ao publicar artigo: " ++ m)))
    ∧ (∀ m, publish_post t c e cid fid st (.otherError m)
      = .error (.exception ("Erro inesperado ao publicar artigo: " ++ m)))
    ∧ (∀ m, publish_post t c e cid fid st (.okBadJson m)
      = .error (.exception ("Erro inesperado ao publicar artigo: " ++ m)))
    ∧ (∀ body idv, objLookup body "id" = some idv →
      publish_post t c e cid fid st (.ok body) = .ok body) := by
  refine ⟨fun s b => rfl, fun m => rfl, fun m => rfl, fun m => rfl, fun body idv h => ?_⟩
  simp only [publish_post, h]

/-- Claim C7, witness: the taxonomy applied at a successful publish whose
response body carries an id. -/
theorem publish_error_taxonomy_witness :
    publish_post (JsonVal.str "t") (JsonVal.str "c") (JsonVal.str "e") none none "draft"
        (.ok (JsonVal.obj [("id", JsonVal.num "3")]))
      = .ok (JsonVal.obj [("id", JsonVal.num "3")]) :=
  (publish_error_taxonomy (JsonVal.str "t") (JsonVal.str "c") (JsonVal.str "e")
    none none "draft").2.2.2.2 (JsonVal.obj [("id", JsonVal.num "3")]) (JsonVal.num "3") rfl

/-- The category loop on well-formed search entries is first-match by
case-insensitive name. -/
theorem categoryLoop_wf (name : String) (cats : List JsonVal)
    (h : cats.all wellFormedCat = true) :
    categoryLoop (pyLower name) cats
      = .ok ((cats.find? (catMatches name)).bind (fun c => objLookup c "id")) := by
  induction cats with
  | nil => rfl
  | cons c rest ih =>
    rw [List.all_cons, Bool.and_eq_true] at h
    obtain ⟨hc, hrest⟩ := h
    unfold wellFormedCat at hc
    cases hn : objLookup c "name" with
    | none => rw [hn] at hc; simp at hc
    | some v0 =>
      rw [hn] at hc
      cases v0 with
      | str nm =>
        rw [Bool.and_eq_true] at hc
        obtain ⟨idv, hid⟩ := Option.isSome_iff_exists.mp hc.2
        by_cases hm : (pyLower nm == pyLower name) = true
        · have hfind : catMatches name c = true := by simp [catMatches, hn, hm]
          simp [categoryLoop, hn, hm, hid, List.find?_cons_of_pos _ hfind]
        · have hfind : catMatches name c = false := by
            simp only [catMatches, hn]
            exact Bool.not_eq_true _ ▸ (by simpa using hm)
          rw [List.find?_cons_of_neg _ (by simp [hfind])]
          simp only [categoryLoop, hn]
          rw [if_neg (by simpa using hm)]
          exact ih hrest
      | null => simp at hc
      | bool b => simp at hc
      | num n => simp at hc
      | arr l => simp at hc
      | obj m => simp at hc

/-- Claim C8: category resolution is a case-insensitive name lookup over the
search results, returning the first match's id; with no match it returns
whatever creating the category yields (the new id, or `None` when
creation fails); and every failure along the path — a failed search call,
a malformed response body, or a failed creation — yields `None` rather
than an exception. -/
theorem get_category_id_spec :
    (∀ (name : String) (cats : List JsonVal) (createO : HttpOutcome),
      cats.all wellFormedCat = true →
      get_category_id name (.ok (.arr cats)) createO
        = match cats.find? (catMatches name) with
          | some c => objLookup c "id"
          | none => create_category createO)
    ∧ (∀ name createO s b, get_category_id name (.httpError s b) createO = none)
    ∧ (∀ name createO m, get_category_id name (.connError m) createO = none)
    ∧ (∀ name createO m, get_category_id name (.otherError m) createO = none)
    ∧ (∀ name createO m, get_category_id name (.okBadJson m) createO = none)
    ∧ (∀ name cats createO, categoryLoop (pyLower name) cats = .error () →
        get_category_id name (.ok (.arr cats)) createO = none)
    ∧ (∀ s b, create_category (.httpError s b) = none)
    ∧ (∀ m, create_category (.connError m) = none)
    ∧ (∀ m, create_category (.otherError m) = none)
    ∧ (∀ m, create_category (.okBadJson m) = none) := by
  refine ⟨?_, by intros; rfl, by intros; rfl, by intros; rfl, by intros; rfl,
    ?_, by intros; rfl, by intros; rfl, by intros; rfl, by intros; rfl⟩
  · intro name cats createO h
    simp only [get_category_id, categoryLoop_wf name cats h]
    cases hf : cats.find? (catMatches name) with
    | none => rfl
    | some c =>
      have hwf : wellFormedCat c = true := by
        have hmem := List.mem_of_find?_eq_some hf
        exact (List.all_eq_true.mp h) c hmem
      unfold wellFormedCat at hwf
      rw [Bool.and_eq_true] at hwf
      obtain ⟨idv, hid⟩ := Option.isSome_iff_exists.mp hwf.2
      simp [hid]
  · intro name cats createO h
    simp only [get_category_id, h]

/-- Claim C8, witness: `"Marketing"` matches the existing `"MARKETING"`
category case-insensitively and its id is returned without creating
anything. -/
theorem get_category_id_spec_witness :
    get_category_id "Marketing"
      (.ok (JsonVal.arr
        [JsonVal.obj [("name", JsonVal.str "News"), ("id", JsonVal.num "1")],
         JsonVal.obj [("name", JsonVal.str "MARKETING"), ("id", JsonVal.num "5")]]))
      (.otherError "never used")
      = some (JsonVal.num "5") := by
  have h := get_category_id_spec.1 "Marketing"
    [JsonVal.obj [("name", JsonVal.str "News"), ("id", JsonVal.num "1")],
     JsonVal.obj [("name", JsonVal.str "MARKETING"), ("id", JsonVal.num "5")]]
    (.otherError "never used") rfl
  rw [h]
  rfl

end SEOGen
